import Mathlib

/-!
Shallow embedding of the `darkside` pdf-validator service
(`src/services/pdf-validator/app/...`), together with theorems settling the
frozen claims about its document-structure pipeline and task lifecycle.

Numeric page coordinates and font sizes are embedded as rationals (`ℚ`):
every comparison and arithmetic operation the source performs on them
(`<`, `>=`, `abs`, `+`, `-`, `min`, division by a length) is exact on the
inputs the claims exercise, so the embedding is faithful on those.
-/

namespace Darkside

/-- A text block as built by `EnhancedPDFProcessor._extract_page_blocks`
(`enhanced_pdf_processor.py` lines 158-182): position, derived geometry,
font data, style flags, indentation, and the mutable fields written later by
`_analyze_hierarchy` and `_match_occupation_info` (modelled as `Option`,
`none` = key absent from the Python dict). -/
structure Block where
  text : String := ""
  x0 : ℚ := 0
  y0 : ℚ := 0
  x1 : ℚ := 0
  y1 : ℚ := 0
  width : ℚ := 0
  height : ℚ := 0
  center_x : ℚ := 0
  center_y : ℚ := 0
  font : String := ""
  font_size : ℚ := 0
  is_bold : Bool := false
  is_italic : Bool := false
  indentation : ℚ := 0
  occupation_code : Option String := none
  occupation_name : Option String := none
  confidence : Option ℚ := none
  hierarchy_level : Option Nat := none
deriving Repr, DecidableEq

/-- Python `sorted(set(b["font_size"] for b in blocks if b.get("font_size", 0) > 0))`
(`_analyze_hierarchy`, line 200): distinct positive font sizes, ascending. -/
def fontSizesOf (blocks : List Block) : List ℚ :=
  (((blocks.map (fun b => b.font_size)).filter (fun s => decide (0 < s))).dedup).insertionSort (· ≤ ·)

/-- Python `sorted(set(b["indentation"] for b in blocks))` (line 203). -/
def indentationsOf (blocks : List Block) : List ℚ :=
  ((blocks.map (fun b => b.indentation)).dedup).insertionSort (· ≤ ·)

/-- Loop body of `_get_indent_levels` (lines 239-243): given the last tier
representative so far and the remaining ascending indentations, start a new
tier whenever a value exceeds the last representative by more than 15. -/
def buildIndentTiers : ℚ → List ℚ → List ℚ
  | _, [] => []
  | lastRep, i :: rest =>
    if 15 < i - lastRep then i :: buildIndentTiers i rest
    else buildIndentTiers lastRep rest

/-- Embeds `EnhancedPDFProcessor._get_indent_levels` (lines 234-244): first value
seeds the tiers, greedy 15-unit gaps, capped at 4 tiers (`levels[:4]`). -/
def getIndentLevels (indentations : List ℚ) : List ℚ :=
  match indentations with
  | [] => []
  | i :: rest => ((i :: buildIndentTiers i rest).take 4)

/-- Index of the first tier representative within 10 units of `x`
(the `for i, level in enumerate(levels): if abs(indent - level) < 10: return i`
loop of `_get_indent_level`, lines 248-250). -/
def firstWithinTen (x : ℚ) : List ℚ → Option Nat
  | [] => none
  | l :: rest =>
    if |x - l| < 10 then some 0
    else (firstWithinTen x rest).map (fun i => i + 1)

/-- Embeds `EnhancedPDFProcessor._get_indent_level` (lines 246-251).  The Python
fallback `len(levels) if indent > levels[-1] else 0` raises `IndexError` on an
empty list; every call site reaches it only with a non-empty list, and the
empty case here (0) is never exercised by the theorems. -/
def getIndentLevel (x : ℚ) (levels : List ℚ) : Nat :=
  match firstWithinTen x levels with
  | some i => i
  | none =>
    match levels.getLast? with
    | some last => if last < x then levels.length else 0
    | none => 0

/-- Font-size rule of `_analyze_hierarchy` (lines 213-221): default level 4;
for a positive size with a non-empty size list, level 1 when the size reaches
the largest distinct size, level 2 (resp. 3) when it reaches the second
(resp. third) largest and that many sizes exist.  (The Python conditional
`size >= font_sizes[-1] if len(font_sizes) >= 1 else 14` always takes its
first branch here because `font_sizes` is non-empty under the guard.) -/
def baseLevel (fontSizes : List ℚ) (size : ℚ) : Nat :=
  if 0 < size ∧ fontSizes ≠ [] then
    if fontSizes.getLastD 0 ≤ size then 1
    else if 2 ≤ fontSizes.length ∧ fontSizes.getD (fontSizes.length - 2) 0 ≤ size then 2
    else if 3 ≤ fontSizes.length ∧ fontSizes.getD (fontSizes.length - 3) 0 ≤ size then 3
    else 4
  else 4

/-- Per-block body of the `_analyze_hierarchy` loop (lines 206-232):
font-size base level, indentation adjustment `level = min(level + indent_level, 4)`
applied only when `indent_level > 0`, then the bold promotion
`if is_bold and level > 1: level -= 1`. -/
def classifyLevel (fontSizes indentTiers : List ℚ) (b : Block) : Nat :=
  let level := baseLevel fontSizes b.font_size
  let il := getIndentLevel b.indentation indentTiers
  let level := if 0 < il then min (level + il) 4 else level
  if b.is_bold ∧ 1 < level then level - 1 else level

/-- Embeds `EnhancedPDFProcessor._analyze_hierarchy` (lines 194-232): on a non-empty
block list, write `hierarchy_level` on every block from the document-wide
distinct font sizes and indentation tiers; on the empty list the Python early
`return` leaves the (empty) list untouched. -/
def analyzeHierarchy : List Block → List Block
  | [] => []
  | x :: xs =>
    (x :: xs).map (fun b =>
      { b with hierarchy_level := some (classifyLevel (fontSizesOf (x :: xs))
          (getIndentLevels (indentationsOf (x :: xs))) b) })

/-- Whether a character is matched by the Python regex class `[\d\s\-\.]`
(`\d` = decimal digit, `\s` = whitespace incl. vertical tab and form feed). -/
def isCodeChar (c : Char) : Bool :=
  c.isDigit || c = ' ' || c = '\t' || c = '\n' || c = '\r' ||
    c = '\x0b' || c = '\x0c' || c = '-' || c = '.'

/-- Holds when `re.match(r'^[\d\s\-\.]+$', text)` succeeds: non-empty and every character
is a digit, whitespace, dash, or dot. -/
def isPureNumberText (text : String) : Bool :=
  text ≠ "" && text.toList.all isCodeChar

/-- Whether `needle` occurs at the head of `hay` (character lists). -/
def strLeads : List Char → List Char → Bool
  | [], _ => true
  | _ :: _, [] => false
  | a :: as, b :: bs => a = b && strLeads as bs

/-- Whether `needle` occurs as a contiguous segment of `hay`: the Python
`keyword in text` substring test. -/
def strHasSeg (needle : List Char) : List Char → Bool
  | [] => strLeads needle []
  | b :: bs => strLeads needle (b :: bs) || strHasSeg needle bs

/-- The `job_keywords` of `_is_occupation_name` (line 285). -/
def jobKeywords : List String :=
  ["员", "师", "工", "长", "家", "人员", "技术", "管理", "操作", "专员", "主管"]

/-- A CJK ideograph in the range `[一-龥]` of line 290. -/
def isCjkChar (c : Char) : Bool :=
  0x4e00 ≤ c.toNat && c.toNat ≤ 0x9fa5

/-- Embeds `EnhancedPDFProcessor._is_occupation_name` (lines 278-291): reject pure
digits/space/dash/dot text; accept on any role-suffix keyword; otherwise
accept iff the CJK-character fraction exceeds 1/2 (`False` on empty text). -/
def isOccupationName (text : String) : Bool :=
  if isPureNumberText text then false
  else if jobKeywords.any (fun k => strHasSeg k.toList text.toList) then true
  else if text ≠ "" then
    decide (((text.toList.filter isCjkChar).length : ℚ) / (text.toList.length : ℚ) > 1/2)
  else false

/-- Same-row test of `_match_occupation_info` (line 264):
`abs(candidate["center_y"] - block["center_y"]) < block["height"]`. -/
def sameRow (b c : Block) : Bool :=
  decide (|c.center_y - b.center_y| < b.height)

/-- Next-row test (lines 270-271): `candidate["center_y"] > block["center_y"]
and candidate["center_y"] - block["center_y"] < block["height"] * 2`. -/
def nextRow (b c : Block) : Bool :=
  decide (b.center_y < c.center_y ∧ c.center_y - b.center_y < b.height * 2)

/-- Forward scan of `_match_occupation_info` (lines 260-276) over the window
of candidates following a coded block `b`: per candidate, the same-row branch
is tested first; in either branch a passing label predicate stops the scan
with the candidate's text and the branch's confidence, a failing one moves on
to the next candidate. -/
def assocScan (b : Block) : List Block → Option (String × ℚ)
  | [] => none
  | c :: rest =>
    if sameRow b c then
      if isOccupationName c.text then some (c.text, 9/10) else assocScan b rest
    else if nextRow b c then
      if isOccupationName c.text then some (c.text, 7/10) else assocScan b rest
    else assocScan b rest

/-- Embeds `EnhancedPDFProcessor._match_occupation_info` (lines 253-276): every block
carrying an `occupation_code` scans the next four blocks
(`range(i + 1, min(i + 5, len(blocks)))`) and, on a hit, receives the
candidate's text and the branch confidence; other blocks are untouched.
(The Python mutation of `blocks[i]` only writes `occupation_name`/`confidence`,
which no candidate test reads, so the functional map is exact.) -/
def matchOccupationInfo (blocks : List Block) : List Block :=
  blocks.mapIdx (fun i b =>
    if b.occupation_code.isSome then
      match assocScan b ((blocks.drop (i + 1)).take 4) with
      | some (name, conf) => { b with occupation_name := some name, confidence := some conf }
      | none => b
    else b)

/-- One entry of `page.get_text("blocks")` as used by
`PageSnapshotService._detect_tables`: the tuple positions `b[0]`/`b[1]` are
the block's left x and top y. -/
structure PageTextBlock where
  x0 : ℚ := 0
  y0 : ℚ := 0
deriving Repr, DecidableEq

/-- Python `round(y, 1)`: y rounded to one decimal place.  (Mathlib's `round` is
half-up where Python's is half-to-even on floats; no claim input sits on a
half-tenth tie, so the groupings coincide on everything proved here.) -/
def roundTenth (y : ℚ) : ℚ :=
  ((round (10 * y) : ℤ) : ℚ) / 10

/-- Embeds `PageSnapshotService._detect_tables` (`page_snapshot_service.py` lines
352-380): only when the page holds more than 3 blocks (`len(text_blocks) > 3`)
are the top-y values rounded to one decimal and counted; any group of at
least 3 equal rounded values yields `tables_count = 1`, otherwise 0. -/
def detectTables (textBlocks : List PageTextBlock) : Nat :=
  if 3 < textBlocks.length then
    let ys := textBlocks.map (fun b => roundTenth b.y0)
    if ys.any (fun y => 3 ≤ ys.count y) then 1 else 0
  else 0

/-- The grouping condition alone (some rounded-top-y group of size ≥ 3),
without the `len(text_blocks) > 3` guard — the condition the claim states. -/
def hasAlignedTriple (textBlocks : List PageTextBlock) : Bool :=
  let ys := textBlocks.map (fun b => roundTenth b.y0)
  ys.any (fun y => 3 ≤ ys.count y)

/-- The page-text join of `PDFProcessor._standard_validation`
(`pdf_processor.py` line 166): `result["text"] = "\\n".join(text_content)`.
The Python separator literal is the TWO-character string backslash-`n`,
not a newline. -/
def standardValidationText (pageTexts : List String) : String :=
  String.intercalate "\\n" pageTexts

/-- The database session as `extract_page_snapshots` drives it: records
`db.add`-ed but not yet committed, and records made durable by `db.commit()`. -/
structure DbSession (α : Type) where
  pending : List α := []
  committed : List α := []
deriving Repr, DecidableEq

/-- Models `db.add(record)`: stage one record. -/
def dbAdd {α} (s : DbSession α) (r : α) : DbSession α :=
  { s with pending := s.pending ++ [r] }

/-- Models `db.commit()`: make every staged record durable in one batch. -/
def dbCommit {α} (s : DbSession α) : DbSession α :=
  { pending := [], committed := s.committed ++ s.pending }

/-- Models `db.rollback()`: discard every staged record. -/
def dbRollback {α} (s : DbSession α) : DbSession α :=
  { s with pending := [] }

/-- The page loop of `PageSnapshotService.extract_page_snapshots` (lines
60-96): each page's `_extract_single_page` either yields a snapshot record
(then `db.add`) or raises (modelled as `Except.error`), which aborts the
loop at that page, leaving the records added so far staged but uncommitted. -/
def snapshotLoop {ε α : Type} :
    List (Except ε α) → DbSession α → Except ε (List α) × DbSession α
  | [], s => (Except.ok [], s)
  | Except.error e :: _, s => (Except.error e, s)
  | Except.ok r :: rest, s =>
    let out := snapshotLoop rest (dbAdd s r)
    (out.1.map (fun l => r :: l), out.2)

/-- Embeds `PageSnapshotService.extract_page_snapshots` (lines 34-108): run
the page loop on a fresh session; `db.commit()` once after the loop on
success, `db.rollback()` and re-raise on any failure. -/
def extractPageSnapshots {ε α : Type} (pages : List (Except ε α)) :
    Except ε (List α) × DbSession α :=
  let out := snapshotLoop pages {}
  match out.1 with
  | Except.ok l => (Except.ok l, dbCommit out.2)
  | Except.error e => (Except.error e, dbRollback out.2)

/-- One page as read during block extraction (`process_pdf_with_blocks`,
lines 66-77): either the page's span blocks together with its `get_text()`
string, or a read/decode failure raised by the document reader. -/
abbrev PageRead := Except String (List Block × String)

/-- Summary fields of the `process_pdf_with_blocks` return value that the
claims inspect. -/
structure BlocksResult where
  is_valid : Bool
  page_count : Nat
  total_blocks : Nat
  extracted_text : String
deriving Repr, DecidableEq

/-- The extraction loop of `process_pdf_with_blocks`: collect every page's
blocks and text, aborting at the first page whose read raises. -/
def extractAllPages : List PageRead → Except String (List (List Block × String))
  | [] => Except.ok []
  | Except.error e :: _ => Except.error e
  | Except.ok p :: rest => (extractAllPages rest).map (fun l => p :: l)

/-- Embeds `EnhancedPDFProcessor.process_pdf_with_blocks` (lines 35-135) with
`save_to_db=True`: extract every page (any failure propagates as
`PDFValidationError`, line 135), then hierarchy analysis, then occupation
matching, then `_save_blocks_to_db`.  The second component is the list of
block records persisted to the database: `_save_blocks_to_db` runs only after
the whole pipeline succeeded, so a failing extraction persists nothing.
(Snapshot extraction, lines 81-93, has its own swallowed `try/except` and
never touches block persistence.) -/
def processPdfWithBlocks (doc : List PageRead) :
    Except String BlocksResult × List Block :=
  match extractAllPages doc with
  | Except.error e => (Except.error ("PDF处理失败: " ++ e), [])
  | Except.ok pages =>
    let allBlocks := (pages.map (fun p => p.1)).flatten
    let analyzed := matchOccupationInfo (analyzeHierarchy allBlocks)
    (Except.ok
      { is_valid := true
        page_count := doc.length
        total_blocks := analyzed.length
        extracted_text := String.intercalate "\n" (pages.map (fun p => p.2)) },
      analyzed)

/-- Task status enumeration of `models/validation_task.py`. -/
inductive TaskStatusE
  | pending
  | processing
  | completed
  | failed
  | cancelled
deriving Repr, DecidableEq

/-- The `result_summary` written on completion (`pdf_validator.py`
lines 134-139). -/
structure ResultSummary where
  is_valid : Bool
  page_count : Nat
  text_length : Nat
  has_errors : Bool
deriving Repr, DecidableEq

/-- The `ValidationTask` row fields the lifecycle claims inspect; timestamps
are modelled as set/unset flags. -/
structure TaskRow where
  status : TaskStatusE := TaskStatusE.pending
  startedAt : Bool := false
  completedAt : Bool := false
  resultSummary : Option ResultSummary := none
  errorMessage : Option String := none
deriving Repr, DecidableEq

/-- The validation-result fields of `PDFProcessor.validate_pdf` that the
claims inspect. -/
structure VResult where
  is_valid : Bool := false
  text : String := ""
  page_count : Nat := 0
  errors : List String := []
  warnings : List String := []
  metadata : List (String × String) := []
deriving Repr, DecidableEq

/-- Embeds `PDFValidationWorker.process_validation_task`
(`pdf_validator.py` lines 44-178) at the orchestration level.  `taskFound`
models the task-row query (line 68), `downloadOk` the storage download (line
92); `vr` is the `_validate_pdf_file` result, which never raises (its own
`except` returns an invalid result, lines 212-223).  The enhanced block
processing of step 3.5 is wrapped in a `try/except` that only logs a warning
(lines 103-112), so its failure does not change the task outcome.  Returns
the task row, the block records persisted, and whether the call raised. -/
def processValidationTask (taskFound downloadOk : Bool) (vr : VResult)
    (doc : List PageRead) (t : TaskRow) : TaskRow × List Block × Except String Unit :=
  if taskFound = false then
    (t, [], Except.error "task not found")
  else
    let t1 := { t with status := TaskStatusE.processing, startedAt := true }
    if downloadOk = false then
      ({ t1 with
          status := TaskStatusE.failed
          completedAt := true
          errorMessage := some "download failed" }, [], Except.error "download failed")
    else
      let saved := (processPdfWithBlocks doc).2
      ({ t1 with
          status := TaskStatusE.completed
          completedAt := true
          resultSummary := some
            { is_valid := vr.is_valid
              page_count := vr.page_count
              text_length := vr.text.length
              has_errors := vr.errors ≠ [] } },
       saved, Except.ok ())

/-- The `result_summary` dict computed from a validation result
(`pdf_validator.py` lines 134-139). -/
def resultSummaryOf (vr : VResult) : ResultSummary :=
  { is_valid := vr.is_valid
    page_count := vr.page_count
    text_length := vr.text.length
    has_errors := vr.errors ≠ [] }

/-- Task-row writes of one attempt of `process_validation_task` on an
existing task row, abstracted over the attempt's outcome: on success, lines
131-141 set `COMPLETED`, `completed_at` and the result summary; on an
exception, lines 160-165 set `FAILED`, `completed_at` and the error message.
`started_at` is set at dequeue (lines 75-77) in both cases. -/
def attemptEffect (t : TaskRow) : Except String VResult → TaskRow
  | Except.ok vr =>
    { t with
        status := TaskStatusE.completed
        startedAt := true
        completedAt := true
        resultSummary := some (resultSummaryOf vr) }
  | Except.error e =>
    { t with
        status := TaskStatusE.failed
        startedAt := true
        completedAt := true
        errorMessage := some e }

/-- The final-failure message of `validate_pdf_task` (line 272):
`f"任务失败，已达最大重试次数: {str(exc)}"`. -/
def maxRetriesMessage (e : String) : String :=
  "任务失败，已达最大重试次数: " ++ e

/-- Embeds the body of `validate_pdf_task` (`pdf_validator.py` lines 236-277)
at retry count `retries`: run the attempt; on an exception, when
`self.request.retries >= settings.MAX_RETRY_ATTEMPTS` overwrite the task row
with `FAILED` and the max-retries message before re-raising.  The returned
`Bool` is whether the attempt succeeded. -/
def validateAttempt (maxRetries retries : Nat) (t : TaskRow)
    (out : Except String VResult) : TaskRow × Bool :=
  match out with
  | Except.ok vr => (attemptEffect t (Except.ok vr), true)
  | Except.error e =>
    let t' := attemptEffect t (Except.error e)
    if maxRetries ≤ retries then
      ({ t' with
          status := TaskStatusE.failed
          completedAt := true
          errorMessage := some (maxRetriesMessage e) }, false)
    else (t', false)

/-- Modelled from the spec: the retry driver itself is the queue library's
`autoretry_for=(Exception,)` with `max_retries = settings.MAX_RETRY_ATTEMPTS`
(not repository code); per §4.7 each exception re-schedules the attempt with
an incremented retry counter up to the configured maximum attempt count.
`remaining` is kept equal to `maxRetries - retries`. -/
def runTaskFrom (maxRetries : Nat) (outcomes : Nat → Except String VResult) :
    Nat → Nat → TaskRow → TaskRow
  | retries, remaining, t =>
    let (t', ok) := validateAttempt maxRetries retries t (outcomes retries)
    match remaining with
    | 0 => t'
    | n + 1 => if ok then t' else runTaskFrom maxRetries outcomes (retries + 1) n t'

/-- Modelled from the spec: a task's full lifecycle of at most
`maxRetries + 1` attempts, attempt `k` having outcome `outcomes k`. -/
def runTask (maxRetries : Nat) (outcomes : Nat → Except String VResult)
    (t : TaskRow) : TaskRow :=
  runTaskFrom maxRetries outcomes 0 maxRetries t

/-- Filesystem facts about the path handed to `validate_pdf`: whether it is a
regular file and its byte size (`Path.is_file()` / `stat().st_size`). -/
structure FsFile where
  isFile : Bool
  size : Nat
deriving Repr, DecidableEq

/-- The opened document's data, as far as the validation levels read it. -/
structure PdfDocData where
  encrypted : Bool := false
  authEmptyOk : Bool := false
  pageTexts : List String := []
  metadata : List (String × String) := []
deriving Repr, DecidableEq

/-- The external world `validate_pdf` touches: `none` file = path missing,
and the outcome of `fitz.open` on the path. -/
structure PdfEnv where
  file : Option FsFile := none
  openDoc : Except String PdfDocData := Except.error "no document"
deriving Repr

/-- Embeds `PDFProcessor._validate_file_basic` (`pdf_processor.py` lines
107-122): missing path, non-file, oversized and empty files each raise. -/
def validateFileBasic (maxFileSize : Nat) (file : Option FsFile) :
    Except String Unit :=
  match file with
  | none => Except.error "文件不存在"
  | some f =>
    if f.isFile = false then Except.error "不是有效文件"
    else if maxFileSize < f.size then Except.error "文件过大"
    else if f.size = 0 then Except.error "文件为空"
    else Except.ok ()

/-- Embeds `PDFProcessor._open_pdf_document` (lines 124-134): a failing
`fitz.open` raises, and an encrypted document that empty-password
authentication cannot unlock raises (that inner `PDFValidationError` is
itself re-wrapped by the generic `except`, line 134). -/
def openPdfDocument (openDoc : Except String PdfDocData) :
    Except String PdfDocData :=
  match openDoc with
  | Except.error e => Except.error ("无法打开PDF文档: " ++ e)
  | Except.ok d =>
    if d.encrypted = true && d.authEmptyOk = false then
      Except.error ("无法打开PDF文档: PDF文档被加密，无法访问")
    else Except.ok d

/-- Embeds `PDFProcessor._standard_validation` (lines 136-180): valid result
with the joined text (note the literal `"\\n"` separator of line 166), a
warning for a zero-page document, and a warning for blank overall text. -/
def standardValidation (d : PdfDocData) : VResult :=
  let text := standardValidationText d.pageTexts
  { is_valid := true
    errors := []
    warnings :=
      (if d.pageTexts.length = 0 then ["PDF文档无页面"] else []) ++
      (if text.trim = "" then ["PDF文档无文本内容"] else [])
    text := text
    page_count := d.pageTexts.length
    metadata := d.metadata }

/-- Embeds `PDFProcessor._enhanced_validation` (lines 182-233) on the fields
`VResult` carries: the per-page array, image inventory, structure summary and
quality metrics it additionally computes never change `is_valid`, `errors`
(on the pure data model no sub-step raises), `text` or `page_count`. -/
def enhancedValidation (d : PdfDocData) : VResult :=
  standardValidation d

/-- Embeds `PDFProcessor._strict_validation` (lines 235-278): enhanced
validation, then hard errors for blank text and for zero pages (each setting
`is_valid = False`), and warning-only notes for missing `Title`, `Author`
and `Creator` metadata. -/
def strictValidation (d : PdfDocData) : VResult :=
  let r := enhancedValidation d
  let strictErrors :=
    (if r.text.trim = "" then ["严格模式: PDF必须包含可提取的文本"] else []) ++
    (if r.page_count = 0 then ["严格模式: PDF必须包含至少一页"] else [])
  let metaWarnings :=
    (["Title", "Author", "Creator"].filter
      (fun f => (r.metadata.lookup f).getD "" = "")).map
      (fun f => "严格模式建议: 缺少元数据字段 " ++ f)
  let r := { r with warnings := r.warnings ++ metaWarnings }
  if strictErrors ≠ [] then
    { r with errors := r.errors ++ strictErrors, is_valid := false }
  else r

/-- The invalid result built by the catch-all `except` of `validate_pdf`
(lines 87-105): `is_valid = False` and a single wrapped error string. -/
def errorResult (msg : String) : VResult :=
  { is_valid := false
    errors := ["PDF处理失败: " ++ msg]
    warnings := []
    text := ""
    page_count := 0
    metadata := [] }

/-- Embeds `PDFProcessor.validate_pdf` (lines 32-105): basic file checks,
document open, then dispatch on the validation type (an unrecognized type
raises, line 67); every raise is caught by the outer `except` and turned
into `errorResult`, so the function always returns a result value. -/
def validatePdf (maxFileSize : Nat) (env : PdfEnv) (validationType : String) :
    VResult :=
  match validateFileBasic maxFileSize env.file with
  | Except.error e => errorResult e
  | Except.ok _ =>
    match openPdfDocument env.openDoc with
    | Except.error e => errorResult e
    | Except.ok d =>
      if validationType = "standard" then standardValidation d
      else if validationType = "enhanced" then enhancedValidation d
      else if validationType = "strict" then strictValidation d
      else errorResult ("不支持的验证类型: " ++ validationType)

/-- The internal-failure condition of claim C10, stated on the environment:
missing file, non-file, oversized or empty file, document-open failure,
inaccessible encrypted document, or unrecognized validation type. -/
def isInternalFailure (maxFileSize : Nat) (env : PdfEnv)
    (validationType : String) : Prop :=
  env.file = none ∨
  (∃ f, env.file = some f ∧ (f.isFile = false ∨ maxFileSize < f.size ∨ f.size = 0)) ∨
  (∃ e, env.openDoc = Except.error e) ∨
  (∃ d, env.openDoc = Except.ok d ∧ d.encrypted = true ∧ d.authEmptyOk = false) ∨
  (validationType ≠ "standard" ∧ validationType ≠ "enhanced" ∧ validationType ≠ "strict")

/-! ### Hierarchy-level range (claim C2) -/

theorem baseLevel_bounds (fs : List ℚ) (s : ℚ) :
    1 ≤ baseLevel fs s ∧ baseLevel fs s ≤ 4 := by
  unfold baseLevel
  split_ifs <;> omega

theorem classifyLevel_bounds (fs tiers : List ℚ) (b : Block) :
    1 ≤ classifyLevel fs tiers b ∧ classifyLevel fs tiers b ≤ 4 := by
  obtain ⟨h1, h4⟩ := baseLevel_bounds fs b.font_size
  simp only [classifyLevel]
  split_ifs <;> omega

/-- C2: hierarchy classification assigns every block of every input list a
`hierarchy_level` in `{1, 2, 3, 4}`; in particular the bold adjustment never
produces a level below 1 and the indentation adjustment never produces a
level above 4. -/
theorem c2_hierarchy_level_in_range (blocks : List Block) (b : Block)
    (hb : b ∈ analyzeHierarchy blocks) :
    ∃ l, b.hierarchy_level = some l ∧ 1 ≤ l ∧ l ≤ 4 := by
  cases blocks with
  | nil => simp [analyzeHierarchy] at hb
  | cons x xs =>
    rw [analyzeHierarchy] at hb
    obtain ⟨a, _, rfl⟩ := List.mem_map.mp hb
    exact ⟨_, rfl, classifyLevel_bounds _ _ a⟩

/-- A one-block document exercising the bold adjustment. -/
def sampleBoldBlock : Block :=
  { font_size := 12, is_bold := true }

theorem c2_hierarchy_level_in_range_witness :
    ∃ l, ((analyzeHierarchy [sampleBoldBlock]).headD {}).hierarchy_level = some l ∧
      1 ≤ l ∧ l ≤ 4 :=
  c2_hierarchy_level_in_range [sampleBoldBlock]
    ((analyzeHierarchy [sampleBoldBlock]).headD {})
    (by simp [analyzeHierarchy])

/-! ### Indentation levels (claim C6) -/

theorem firstWithinTen_some (x : ℚ) (levels : List ℚ) (i : Nat)
    (h : firstWithinTen x levels = some i) :
    i < levels.length ∧ |x - levels.getD i 0| < 10 ∧
      ∀ j, j < i → ¬ |x - levels.getD j 0| < 10 := by
  induction levels generalizing i with
  | nil => simp [firstWithinTen] at h
  | cons l rest ih =>
    rw [firstWithinTen] at h
    by_cases hl : |x - l| < 10
    · simp only [if_pos hl] at h
      cases h
      exact ⟨by simp, by simpa using hl, by omega⟩
    · simp only [if_neg hl, Option.map_eq_some'] at h
      obtain ⟨i', hi', rfl⟩ := h
      obtain ⟨h1, h2, h3⟩ := ih i' hi'
      refine ⟨by simpa using h1, by simpa using h2, ?_⟩
      intro j hj
      cases j with
      | zero => simpa using hl
      | succ j' => simpa using h3 j' (by omega)

theorem firstWithinTen_none (x : ℚ) (levels : List ℚ)
    (h : firstWithinTen x levels = none) :
    ∀ j, j < levels.length → ¬ |x - levels.getD j 0| < 10 := by
  induction levels with
  | nil => simp
  | cons l rest ih =>
    rw [firstWithinTen] at h
    by_cases hl : |x - l| < 10
    · simp [if_pos hl] at h
    · simp only [if_neg hl, Option.map_eq_none'] at h
      intro j hj
      cases j with
      | zero => simpa using hl
      | succ j' => simpa using ih h j' (by simpa using hj)

/-- Follows the claim's words, not the source: the index of the tier
representative nearest to `x` among those lying within 10 units (earlier
index kept on an exact tie), with the claim's fallback when none is within
10 units. -/
def idxPairs : Nat → List ℚ → List (Nat × ℚ)
  | _, [] => []
  | i, l :: rest => (i, l) :: idxPairs (i + 1) rest

/-- Follows the claim's words, not the source: `indent_level(x)` as claim C6
states it, picking the nearest representative within 10 units rather than
the first. -/
def nearestWithinTenSpec (x : ℚ) (levels : List ℚ) : Nat :=
  match (idxPairs 0 levels).filter (fun p => decide (|x - p.2| < 10)) with
  | [] =>
    match levels.getLast? with
    | some last => if last < x then levels.length else 0
    | none => 0
  | c :: cs =>
    (cs.foldl (fun best p => if |x - p.2| < |x - best.2| then p else best) c).1

/-- C6 counterexample: from the indentations `[0, 9, 16]` the tier builder
produces representatives `[0, 16]`; for `x = 9` both representatives lie
within 10 units and the nearest is `16` (distance 7) at index 1, but the
code returns index 0 (the first within 10 units, distance 9). -/
theorem c6_nearest_counterexample :
    getIndentLevels [0, 9, 16] = [0, 16] ∧
    getIndentLevel 9 (getIndentLevels [0, 9, 16]) = 0 ∧
    nearestWithinTenSpec 9 (getIndentLevels [0, 9, 16]) = 1 ∧
    (0 : Nat) ≠ 1 := by
  refine ⟨?_, ?_, ?_, by omega⟩ <;>
    norm_num [getIndentLevels, buildIndentTiers, getIndentLevel,
      firstWithinTen, nearestWithinTenSpec, idxPairs, abs_lt, abs_of_nonneg]

/-- C6 (amended): on a non-empty tier list, `indent_level(x)` returns the
index of the FIRST tier representative within 10 units of `x` in ascending
index order (not the nearest — see the counterexample); if no representative
is within 10 units it returns the tier count when `x` exceeds the last
representative and 0 otherwise. -/
theorem c6_amended_first_within_ten (x : ℚ) (levels : List ℚ)
    (hne : levels ≠ []) :
    ((∃ j, j < levels.length ∧ |x - levels.getD j 0| < 10) →
      getIndentLevel x levels < levels.length ∧
      |x - levels.getD (getIndentLevel x levels) 0| < 10 ∧
      ∀ j, j < getIndentLevel x levels → ¬ |x - levels.getD j 0| < 10) ∧
    ((∀ j, j < levels.length → ¬ |x - levels.getD j 0| < 10) →
      getIndentLevel x levels =
        if levels.getLastD 0 < x then levels.length else 0) := by
  unfold getIndentLevel
  cases hfw : firstWithinTen x levels with
  | some i =>
    obtain ⟨h1, h2, h3⟩ := firstWithinTen_some x levels i hfw
    exact ⟨fun _ => ⟨h1, h2, h3⟩,
      fun hall => absurd h2 (hall i h1)⟩
  | none =>
    have hnone := firstWithinTen_none x levels hfw
    constructor
    · rintro ⟨j, hj, hw⟩
      exact absurd hw (hnone j hj)
    · intro _
      rw [List.getLastD_eq_getLast?]
      cases hg : levels.getLast? with
      | some last => simp
      | none => exact absurd (List.getLast?_eq_none_iff.mp hg) hne

theorem c6_amended_first_within_ten_witness :
    ((∃ j, j < ([0, 16] : List ℚ).length ∧ |(9 : ℚ) - ([0, 16] : List ℚ).getD j 0| < 10) →
      getIndentLevel 9 [0, 16] < ([0, 16] : List ℚ).length ∧
      |(9 : ℚ) - ([0, 16] : List ℚ).getD (getIndentLevel 9 [0, 16]) 0| < 10 ∧
      ∀ j, j < getIndentLevel 9 [0, 16] → ¬ |(9 : ℚ) - ([0, 16] : List ℚ).getD j 0| < 10) ∧
    ((∀ j, j < ([0, 16] : List ℚ).length → ¬ |(9 : ℚ) - ([0, 16] : List ℚ).getD j 0| < 10) →
      getIndentLevel 9 [0, 16] =
        if ([0, 16] : List ℚ).getLastD 0 < 9 then ([0, 16] : List ℚ).length else 0) :=
  c6_amended_first_within_ten 9 [0, 16] (by simp)

/-! ### Hierarchy determinism and order-independence (claim C7) -/

theorem insertionSort_dedup_eq_of_perm {l₁ l₂ : List ℚ} (h : l₁.Perm l₂) :
    l₁.dedup.insertionSort (· ≤ ·) = l₂.dedup.insertionSort (· ≤ ·) :=
  List.eq_of_perm_of_sorted
    (((List.perm_insertionSort _ _).trans h.dedup).trans
      (List.perm_insertionSort _ _).symm)
    (List.sorted_insertionSort _ _) (List.sorted_insertionSort _ _)

theorem fontSizesOf_perm {bs bs' : List Block} (h : bs.Perm bs') :
    fontSizesOf bs = fontSizesOf bs' :=
  insertionSort_dedup_eq_of_perm ((h.map _).filter _)

theorem indentationsOf_perm {bs bs' : List Block} (h : bs.Perm bs') :
    indentationsOf bs = indentationsOf bs' :=
  insertionSort_dedup_eq_of_perm (h.map _)

/-- The classifier as a map with the document-wide data factored out; holds
for the empty list too, where both sides are `[]`. -/
theorem analyzeHierarchy_eq_map (blocks : List Block) :
    analyzeHierarchy blocks = blocks.map (fun b =>
      { b with hierarchy_level := some (classifyLevel (fontSizesOf blocks)
          (getIndentLevels (indentationsOf blocks)) b) }) := by
  cases blocks <;> rfl

/-- C7: hierarchy classification is deterministic and order-independent:
running the classifier twice on equal input gives equal output, permuting
the block list permutes the classified output accordingly, and the level
assigned to a given block depends only on the block's own attributes plus
the document-wide sets of font sizes and indentation values (equal for
permuted lists), not on the processing order. -/
theorem c7_hierarchy_deterministic_order_independent
    (blocks blocks' : List Block) (b : Block) (h : blocks.Perm blocks') :
    analyzeHierarchy blocks = analyzeHierarchy blocks ∧
    (analyzeHierarchy blocks).Perm (analyzeHierarchy blocks') ∧
    classifyLevel (fontSizesOf blocks) (getIndentLevels (indentationsOf blocks)) b =
      classifyLevel (fontSizesOf blocks') (getIndentLevels (indentationsOf blocks')) b := by
  refine ⟨rfl, ?_, ?_⟩
  · rw [analyzeHierarchy_eq_map, analyzeHierarchy_eq_map,
      fontSizesOf_perm h, indentationsOf_perm h]
    exact h.map _
  · rw [fontSizesOf_perm h, indentationsOf_perm h]

theorem c7_hierarchy_deterministic_order_independent_witness :
    analyzeHierarchy [sampleBoldBlock, { indentation := 20 }] =
      analyzeHierarchy [sampleBoldBlock, { indentation := 20 }] ∧
    (analyzeHierarchy [sampleBoldBlock, { indentation := 20 }]).Perm
      (analyzeHierarchy [{ indentation := 20 }, sampleBoldBlock]) ∧
    classifyLevel (fontSizesOf [sampleBoldBlock, { indentation := 20 }])
        (getIndentLevels (indentationsOf [sampleBoldBlock, { indentation := 20 }]))
        sampleBoldBlock =
      classifyLevel (fontSizesOf [{ indentation := 20 }, sampleBoldBlock])
        (getIndentLevels (indentationsOf [{ indentation := 20 }, sampleBoldBlock]))
        sampleBoldBlock :=
  c7_hierarchy_deterministic_order_independent
    [sampleBoldBlock, { indentation := 20 }]
    [{ indentation := 20 }, sampleBoldBlock]
    sampleBoldBlock
    (List.Perm.swap { indentation := 20 } sampleBoldBlock [])

/-! ### Table heuristic (claim C4) -/

/-- C4 counterexample: a page whose blocks are exactly three blocks sharing
top y = 100 (hence sharing the rounded value) has an aligned group of size 3,
yet the code reports `tables_count = 0`, because the grouping only runs when
the page holds more than 3 blocks (`len(text_blocks) > 3`). -/
theorem c4_three_blocks_counterexample :
    hasAlignedTriple [{ y0 := 100 }, { x0 := 50, y0 := 100 }, { x0 := 120, y0 := 100 }] = true ∧
    detectTables [{ y0 := 100 }, { x0 := 50, y0 := 100 }, { x0 := 120, y0 := 100 }] = 0 ∧
    detectTables [{ y0 := 100 }, { x0 := 50, y0 := 100 }, { x0 := 120, y0 := 100 }] ≠ 1 := by
  refine ⟨?_, rfl, by simp [detectTables]⟩
  simp [hasAlignedTriple, List.count_cons]

/-- C4 (amended): the page reports `tables = 1` iff the page holds MORE THAN
3 blocks AND some group of blocks sharing a rounded (1-decimal) top y has at
least 3 members; in particular exactly-three aligned blocks on a 3-block
page report `tables = 0` (see the counterexample). -/
theorem c4_amended_table_detection_iff (textBlocks : List PageTextBlock) :
    detectTables textBlocks = 1 ↔
      (3 < textBlocks.length ∧ hasAlignedTriple textBlocks = true) := by
  simp only [detectTables, hasAlignedTriple]
  split_ifs with h1 h2 <;> simp_all

theorem c4_amended_table_detection_iff_witness :
    detectTables [{ y0 := 100 }, { x0 := 50, y0 := 100 }, { x0 := 120, y0 := 100 },
        { x0 := 10, y0 := 300 }] = 1 ↔
      (3 < ([{ y0 := 100 }, { x0 := 50, y0 := 100 }, { x0 := 120, y0 := 100 },
        { x0 := 10, y0 := 300 }] : List PageTextBlock).length ∧
       hasAlignedTriple [{ y0 := 100 }, { x0 := 50, y0 := 100 }, { x0 := 120, y0 := 100 },
        { x0 := 10, y0 := 300 }] = true) :=
  c4_amended_table_detection_iff _

/-! ### Standard-validation text separator (claim C5) -/

/-- C5: evaluation at the failing input.  A two-page document with page texts
"a" and "b" yields the four-character string `a`, backslash, `n`, `b` — the
source line `result["text"] = "\\n".join(text_content)` joins with the
literal two-character sequence backslash-`n`, not with the newline character
the specification states (the sibling enhanced processor, line 115, uses a
real newline for the same purpose, so the escaped literal is a slip). -/
theorem c5_literal_separator_eval :
    standardValidationText ["a", "b"] = "a\\nb" ∧
    "a\\nb" ≠ "a\nb" ∧
    (standardValidation { pageTexts := ["a", "b"] }).text ≠ "a\nb" := by
  refine ⟨rfl, by decide, by decide⟩

/-! ### Code/label association (claim C3) -/

/-- A candidate that stops the association scan: label predicate passes and
either row condition holds. -/
def qualifiesAssoc (b c : Block) : Bool :=
  isOccupationName c.text && (sameRow b c || nextRow b c)

/-- The scan is the first match in document order of `qualifiesAssoc`, with
the confidence decided by the row condition of THAT candidate. -/
theorem assocScan_eq_find (b : Block) (l : List Block) :
    assocScan b l = (l.find? (qualifiesAssoc b)).map
      (fun c => (c.text, if sameRow b c then (9 : ℚ)/10 else 7/10)) := by
  induction l with
  | nil => rfl
  | cons c rest ih =>
    rw [assocScan, List.find?]
    by_cases h1 : sameRow b c <;> by_cases h2 : isOccupationName c.text <;>
      by_cases h3 : nextRow b c <;>
      simp [qualifiesAssoc, h1, h2, h3, ih]

/-- The coded block of the C3 counterexample. -/
def cbCoded : Block :=
  { text := "1-01-01-01", occupation_code := some "1-01-01-01",
    center_y := 0, height := 10 }

/-- The earlier candidate: next-row position (distance 15, below the coded
block, within twice its height) and a passing label. -/
def cbNextRowFirst : Block :=
  { text := "工程师", center_y := 15 }

/-- The later candidate: same-row position (distance 0) and a passing label. -/
def cbSameRowLater : Block :=
  { text := "管理员", center_y := 0 }

/-- C3 counterexample: the scan window of the coded block contains a
candidate satisfying the same-row condition and the label predicate
(`cbSameRowLater`), so the claim as stated demands confidence 0.9 — but the
code scans in document order and stops at the earlier next-row candidate
with confidence 0.7. -/
theorem c3_same_row_priority_counterexample :
    sameRow cbCoded cbSameRowLater = true ∧
    isOccupationName cbSameRowLater.text = true ∧
    cbSameRowLater ∈ ([cbCoded, cbNextRowFirst, cbSameRowLater].drop 1).take 4 ∧
    ((matchOccupationInfo [cbCoded, cbNextRowFirst, cbSameRowLater]).headD {}).confidence
      = some (7/10) ∧
    ((matchOccupationInfo [cbCoded, cbNextRowFirst, cbSameRowLater]).headD {}).occupation_name
      = some "工程师" ∧
    (7 : ℚ)/10 ≠ 9/10 := by
  have hsame : sameRow cbCoded cbSameRowLater = true := by
    norm_num [sameRow, cbCoded, cbSameRowLater]
  have hnrow : sameRow cbCoded cbNextRowFirst = false := by
    norm_num [sameRow, cbCoded, cbNextRowFirst, abs_lt]
  have hnext : nextRow cbCoded cbNextRowFirst = true := by
    norm_num [nextRow, cbCoded, cbNextRowFirst]
  have hname : isOccupationName cbNextRowFirst.text = true := by decide
  have hscan : matchOccupationInfo [cbCoded, cbNextRowFirst, cbSameRowLater] =
      [{ cbCoded with
           occupation_name := some "工程师"
           confidence := some (7/10) },
       cbNextRowFirst, cbSameRowLater] := by
    simp only [matchOccupationInfo, List.mapIdx_cons, List.mapIdx_nil]
    norm_num [cbCoded, cbNextRowFirst, cbSameRowLater, assocScan] at hnrow hnext hname ⊢
    simp [hnrow, hnext, hname, assocScan]
  refine ⟨hsame, by decide, by simp [cbCoded, cbNextRowFirst, cbSameRowLater], ?_, ?_, by norm_num⟩ <;>
    rw [hscan] <;> rfl

/-- C3 (amended): for every coded block `i`, scanning blocks `i+1..i+4` in
document order, the FIRST candidate that passes the label predicate and
satisfies the same-row or the next-row condition determines the result —
its text becomes `occupation_name`, with confidence exactly 0.9 when that
candidate satisfies the same-row condition and exactly 0.7 otherwise
(document order takes priority over the same-row condition, contrary to the
claim as stated); when no candidate in the window qualifies, the fields stay
unset. -/
theorem c3_amended_first_match_scan (blocks : List Block) (i : Nat) (b : Block)
    (hb : blocks[i]? = some b) (hc : b.occupation_code.isSome = true) :
    (matchOccupationInfo blocks)[i]? = some
      (match ((blocks.drop (i + 1)).take 4).find? (qualifiesAssoc b) with
       | some c =>
         { b with
             occupation_name := some c.text
             confidence := some (if sameRow b c then (9 : ℚ)/10 else 7/10) }
       | none => b) := by
  rw [matchOccupationInfo, List.getElem?_mapIdx, hb, Option.map_some', hc]
  rw [if_pos rfl, assocScan_eq_find]
  cases ((blocks.drop (i + 1)).take 4).find? (qualifiesAssoc b) <;> rfl

theorem c3_amended_first_match_scan_witness :
    (matchOccupationInfo [cbCoded, cbNextRowFirst, cbSameRowLater])[0]? = some
      (match (([cbCoded, cbNextRowFirst, cbSameRowLater].drop 1).take 4).find?
          (qualifiesAssoc cbCoded) with
       | some c =>
         { cbCoded with
             occupation_name := some c.text
             confidence := some (if sameRow cbCoded c then (9 : ℚ)/10 else 7/10) }
       | none => cbCoded) :=
  c3_amended_first_match_scan [cbCoded, cbNextRowFirst, cbSameRowLater] 0 cbCoded rfl rfl

/-! ### Block-extraction failure handling (claim C1) -/

theorem extractAllPages_error_of_mem (doc : List PageRead) (e : String)
    (h : Except.error e ∈ doc) :
    ∃ e', extractAllPages doc = Except.error e' := by
  induction doc with
  | nil => simp at h
  | cons p rest ih =>
    cases p with
    | error e₀ => exact ⟨e₀, rfl⟩
    | ok v =>
      rcases List.mem_cons.mp h with h' | h'
      · exact absurd h' (by simp)
      · obtain ⟨e', he'⟩ := ih h'
        exact ⟨e', by rw [extractAllPages, he']; rfl⟩

/-- C1 counterexample: a one-page document whose single page read fails.
`process_pdf_with_blocks` raises and persists no blocks, but the enclosing
validation task swallows the failure (the `try/except` of
`process_validation_task`, lines 103-112) and finishes with status
`COMPLETED` — the whole task does NOT abort. -/
theorem c1_task_not_aborted_counterexample :
    (processPdfWithBlocks [Except.error "page decode failure"]).1 =
      Except.error "PDF处理失败: page decode failure" ∧
    (processPdfWithBlocks [Except.error "page decode failure"]).2 = [] ∧
    (processValidationTask true true {} [Except.error "page decode failure"] {}).1.status =
      TaskStatusE.completed ∧
    TaskStatusE.completed ≠ TaskStatusE.failed := by
  exact ⟨rfl, rfl, rfl, by simp⟩

/-- C1 (amended): if reading the source document or any page fails during
block extraction, `process_pdf_with_blocks` itself aborts and persists no
blocks (extraction is all-or-nothing at that level) — but the enclosing
validation task catches the failure and still completes (contrary to the
claim's "the whole task aborts"), likewise persisting no blocks. -/
theorem c1_amended_no_partial_blocks (doc : List PageRead) (e : String)
    (h : Except.error e ∈ doc) (vr : VResult) (t : TaskRow) :
    (∃ e', (processPdfWithBlocks doc).1 = Except.error ("PDF处理失败: " ++ e')) ∧
    (processPdfWithBlocks doc).2 = [] ∧
    (processValidationTask true true vr doc t).1.status = TaskStatusE.completed ∧
    (processValidationTask true true vr doc t).2.1 = [] := by
  obtain ⟨e', he'⟩ := extractAllPages_error_of_mem doc e h
  have hpdf : processPdfWithBlocks doc =
      (Except.error ("PDF处理失败: " ++ e'), []) := by
    rw [processPdfWithBlocks, he']
  refine ⟨⟨e', by rw [hpdf]⟩, by rw [hpdf], ?_, ?_⟩ <;>
    simp [processValidationTask, hpdf]

theorem c1_amended_no_partial_blocks_witness :
    (∃ e', (processPdfWithBlocks [Except.error "page decode failure"]).1 =
      Except.error ("PDF处理失败: " ++ e')) ∧
    (processPdfWithBlocks [Except.error "page decode failure"]).2 = [] ∧
    (processValidationTask true true {} [Except.error "page decode failure"] {}).1.status =
      TaskStatusE.completed ∧
    (processValidationTask true true {} [Except.error "page decode failure"] {}).2.1 = [] :=
  c1_amended_no_partial_blocks [Except.error "page decode failure"]
    "page decode failure" (by simp) {} {}

/-! ### Snapshot persistence atomicity (claim C9) -/

/-- The page loop never commits: only `db.add` runs inside it. -/
theorem snapshotLoop_committed {ε α : Type} (pages : List (Except ε α))
    (s : DbSession α) : (snapshotLoop pages s).2.committed = s.committed := by
  induction pages generalizing s with
  | nil => rfl
  | cons p rest ih =>
    cases p with
    | error e => rfl
    | ok r =>
      rw [snapshotLoop]
      simpa [dbAdd] using ih (dbAdd s r)

theorem snapshotLoop_ok {ε α : Type} (pages : List (Except ε α))
    (s : DbSession α) (l : List α) (h : (snapshotLoop pages s).1 = Except.ok l) :
    (snapshotLoop pages s).2.pending = s.pending ++ l ∧ pages = l.map Except.ok := by
  induction pages generalizing s l with
  | nil =>
    rw [snapshotLoop] at h ⊢
    simp only at h
    cases h
    simp
  | cons p rest ih =>
    cases p with
    | error e => rw [snapshotLoop] at h; simp at h
    | ok r =>
      rw [snapshotLoop] at h ⊢
      cases hres : (snapshotLoop rest (dbAdd s r)).1 with
      | error e => rw [hres] at h; simp [Except.map] at h
      | ok l₁ =>
        rw [hres] at h
        simp only [Except.map] at h
        cases h
        obtain ⟨hp, hm⟩ := ih (dbAdd s r) l₁ hres
        exact ⟨by simpa [dbAdd] using hp, by simp [hm]⟩

theorem snapshotLoop_error_of_mem {ε α : Type} (pages : List (Except ε α))
    (s : DbSession α) (e : ε) (h : Except.error e ∈ pages) :
    ∃ e', (snapshotLoop pages s).1 = Except.error e' := by
  induction pages generalizing s with
  | nil => simp at h
  | cons p rest ih =>
    cases p with
    | error e₀ => exact ⟨e₀, rfl⟩
    | ok r =>
      have h' : Except.error e ∈ rest := by
        rcases List.mem_cons.mp h with h'' | h''
        · exact absurd h'' (by simp)
        · exact h''
      obtain ⟨e', he'⟩ := ih (dbAdd s r) h'
      rw [snapshotLoop]
      exact ⟨e', by simp [he', Except.map]⟩

/-- C9: snapshot persistence is atomic per task.  If any page's snapshot
creation or storage fails, the whole extraction raises and the session ends
with ZERO committed (and zero staged) records; when every page succeeds the
records of all pages commit as one batch, in page order. -/
theorem c9_snapshot_atomic_commit {ε α : Type} (pages : List (Except ε α)) :
    (∀ e, (extractPageSnapshots pages).1 = Except.error e →
      (extractPageSnapshots pages).2.committed = [] ∧
      (extractPageSnapshots pages).2.pending = []) ∧
    (∀ l, (extractPageSnapshots pages).1 = Except.ok l →
      (extractPageSnapshots pages).2.committed = l ∧
      (extractPageSnapshots pages).2.pending = [] ∧
      pages = l.map Except.ok) ∧
    ((∃ e, Except.error e ∈ pages) →
      ∃ e', (extractPageSnapshots pages).1 = Except.error e') := by
  have hcom := snapshotLoop_committed pages ({} : DbSession α)
  simp only at hcom
  refine ⟨?_, ?_, ?_⟩
  · intro e h
    simp only [extractPageSnapshots] at h ⊢
    cases hres : (snapshotLoop pages ({} : DbSession α)).1 with
    | ok l => rw [hres] at h; simp at h
    | error e' => simp [dbRollback, hcom]
  · intro l h
    simp only [extractPageSnapshots] at h ⊢
    cases hres : (snapshotLoop pages ({} : DbSession α)).1 with
    | error e' => rw [hres] at h; simp at h
    | ok l₁ =>
      rw [hres] at h
      simp only at h
      cases h
      obtain ⟨hp, hm⟩ := snapshotLoop_ok pages ({} : DbSession α) l hres
      have hpend : (snapshotLoop pages ({} : DbSession α)).2.pending = l := by
        simpa using hp
      refine ⟨?_, ?_, hm⟩ <;> simp [dbCommit, hcom, hpend]
  · rintro ⟨e, he⟩
    obtain ⟨e', he'⟩ := snapshotLoop_error_of_mem pages ({} : DbSession α) e he
    simp only [extractPageSnapshots]
    rw [he']
    exact ⟨e', rfl⟩

theorem c9_snapshot_atomic_commit_witness :
    (extractPageSnapshots [Except.ok "page1.png", Except.error "render failed"]).2.committed
      = ([] : List String) ∧
    (extractPageSnapshots [Except.ok ("page1.png" : String),
      Except.error ("render failed" : String)]).1 = Except.error "render failed" :=
  ⟨((c9_snapshot_atomic_commit [Except.ok "page1.png",
      Except.error "render failed"]).1 "render failed" rfl).1,
   rfl⟩

/-! ### Task lifecycle under retries (claim C8) -/

theorem runTaskFrom_all_fail (outcomes : Nat → Except String VResult) :
    ∀ (remaining retries : Nat) (t : TaskRow) (m : Nat),
      m = retries + remaining →
      (∀ k, retries ≤ k → k ≤ m → ∃ e, outcomes k = Except.error e) →
      (runTaskFrom m outcomes retries remaining t).status = TaskStatusE.failed ∧
      ∃ c, (runTaskFrom m outcomes retries remaining t).errorMessage =
        some (maxRetriesMessage c) := by
  intro remaining
  induction remaining with
  | zero =>
    intro retries t m hm hall
    obtain ⟨e, he⟩ := hall retries (le_refl _) (by omega)
    have hle : m ≤ retries := by omega
    rw [runTaskFrom]
    simp only [validateAttempt, he, attemptEffect, if_pos hle]
    exact ⟨by simp, e, by simp⟩
  | succ n ih =>
    intro retries t m hm hall
    obtain ⟨e, he⟩ := hall retries (le_refl _) (by omega)
    have hnle : ¬ m ≤ retries := by omega
    rw [runTaskFrom]
    simp only [validateAttempt, he, attemptEffect, if_neg hnle, Bool.false_eq_true,
      if_false]
    exact ih (retries + 1) _ m (by omega) (fun k hk1 hk2 => hall k (by omega) hk2)

theorem runTaskFrom_first_ok (outcomes : Nat → Except String VResult) :
    ∀ (remaining retries : Nat) (t : TaskRow) (m k : Nat) (vr : VResult),
      m = retries + remaining → retries ≤ k → k ≤ m →
      outcomes k = Except.ok vr →
      (∀ j, retries ≤ j → j < k → ∃ e, outcomes j = Except.error e) →
      (runTaskFrom m outcomes retries remaining t).status = TaskStatusE.completed ∧
      (runTaskFrom m outcomes retries remaining t).completedAt = true ∧
      (runTaskFrom m outcomes retries remaining t).resultSummary =
        some (resultSummaryOf vr) := by
  intro remaining
  induction remaining with
  | zero =>
    intro retries t m k vr hm hk1 hk2 hok _
    have hkeq : k = retries := by omega
    subst hkeq
    rw [runTaskFrom]
    simp only [validateAttempt, hok, attemptEffect]
    exact ⟨by simp, by simp, by simp⟩
  | succ n ih =>
    intro retries t m k vr hm hk1 hk2 hok hprev
    rcases Nat.eq_or_lt_of_le hk1 with hkeq | hklt
    · subst hkeq
      rw [runTaskFrom]
      simp only [validateAttempt, hok, attemptEffect, if_true]
      exact ⟨by simp, by simp, by simp⟩
    · obtain ⟨e, he⟩ := hprev retries (le_refl _) hklt
      have hnle : ¬ m ≤ retries := by omega
      rw [runTaskFrom]
      simp only [validateAttempt, he, attemptEffect, if_neg hnle, Bool.false_eq_true,
        if_false]
      exact ih (retries + 1) _ m k vr (by omega) (by omega) hk2 hok
        (fun j hj1 hj2 => hprev j (by omega) hj2)

/-- C8: if all `maxRetries + 1` attempts raise, the task ends with status
failed and an error message carrying the fixed max-retries marker prefixed
to the underlying cause; if some attempt `k ≤ maxRetries` succeeds (all
earlier ones failing), the task ends completed with `completed_at` set and a
result summary computed from the successful attempt's result only. -/
theorem c8_retry_lifecycle (m : Nat) (outcomes : Nat → Except String VResult)
    (t : TaskRow) :
    ((∀ k, k ≤ m → ∃ e, outcomes k = Except.error e) →
      (runTask m outcomes t).status = TaskStatusE.failed ∧
      ∃ c, (runTask m outcomes t).errorMessage = some (maxRetriesMessage c)) ∧
    (∀ k vr, k ≤ m → outcomes k = Except.ok vr →
      (∀ j, j < k → ∃ e, outcomes j = Except.error e) →
      (runTask m outcomes t).status = TaskStatusE.completed ∧
      (runTask m outcomes t).completedAt = true ∧
      (runTask m outcomes t).resultSummary = some (resultSummaryOf vr)) := by
  constructor
  · intro hall
    exact runTaskFrom_all_fail outcomes m 0 t m (by omega)
      (fun k _ hk2 => hall k hk2)
  · intro k vr hk hok hprev
    exact runTaskFrom_first_ok outcomes m 0 t m k vr (by omega) (by omega) hk hok
      (fun j _ hj2 => hprev j hj2)

/-- Attempt outcomes for the C8 witness: attempt 0 raises, attempt 1
succeeds. -/
def witnessOutcomes : Nat → Except String VResult
  | 0 => Except.error "boom"
  | _ => Except.ok { is_valid := true, text := "ab", page_count := 2 }

theorem c8_retry_lifecycle_witness :
    (runTask 1 witnessOutcomes {}).status = TaskStatusE.completed ∧
    (runTask 1 witnessOutcomes {}).completedAt = true ∧
    (runTask 1 witnessOutcomes {}).resultSummary =
      some (resultSummaryOf { is_valid := true, text := "ab", page_count := 2 }) :=
  (c8_retry_lifecycle 1 witnessOutcomes {}).2 1
    { is_valid := true, text := "ab", page_count := 2 }
    (by omega) rfl
    (by
      intro j hj
      have hj0 : j = 0 := by omega
      subst hj0
      exact ⟨"boom", rfl⟩)

/-! ### Totality of validate_pdf (claim C10) -/

theorem validateFileBasic_ok (m : Nat) (file : Option FsFile) (u : Unit)
    (h : validateFileBasic m file = Except.ok u) :
    ∃ f, file = some f ∧ f.isFile = true ∧ ¬ m < f.size ∧ f.size ≠ 0 := by
  cases file with
  | none => simp [validateFileBasic] at h
  | some f =>
    rw [validateFileBasic] at h
    split_ifs at h with h1 h2 h3
    exact ⟨f, rfl, by simpa using h1, h2, h3⟩

theorem openPdfDocument_ok (od : Except String PdfDocData) (d : PdfDocData)
    (h : openPdfDocument od = Except.ok d) :
    od = Except.ok d ∧ ¬(d.encrypted = true ∧ d.authEmptyOk = false) := by
  cases od with
  | error e => simp [openPdfDocument] at h
  | ok d' =>
    rw [openPdfDocument] at h
    by_cases hc : d'.encrypted = true && d'.authEmptyOk = false
    · rw [if_pos hc] at h; simp at h
    · rw [if_neg hc] at h
      cases h
      refine ⟨rfl, fun hea => ?_⟩
      exact hc (by simp [hea.1, hea.2])

/-- C10: `validate_pdf` is total at its public interface (the embedding is a
total function into a result record carrying `is_valid`, because the
catch-all `except` of lines 87-105 converts every raise into a result), and
whenever an internal failure occurs — missing file, non-file path, oversized
or empty file, document-open failure, inaccessible encrypted document, or an
unrecognized validation type — the returned result has `is_valid = false`
and a non-empty error list. -/
theorem c10_validate_pdf_total (maxFileSize : Nat) (env : PdfEnv) (vt : String)
    (h : isInternalFailure maxFileSize env vt) :
    (validatePdf maxFileSize env vt).is_valid = false ∧
    (validatePdf maxFileSize env vt).errors ≠ [] := by
  cases hfb : validateFileBasic maxFileSize env.file with
  | error e => simp [validatePdf, hfb, errorResult]
  | ok u =>
    cases hod : openPdfDocument env.openDoc with
    | error e => simp [validatePdf, hfb, hod, errorResult]
    | ok d =>
      obtain ⟨f, hf, hfile, hsize, hzero⟩ := validateFileBasic_ok maxFileSize env.file u hfb
      obtain ⟨hoe, henc⟩ := openPdfDocument_ok env.openDoc d hod
      rcases h with hnone | ⟨f', hf', hbad⟩ | ⟨e, he⟩ | ⟨d', hd', he, ha⟩ | ⟨h1, h2, h3⟩
      · rw [hnone] at hf; simp at hf
      · rw [hf] at hf'
        injection hf' with hff
        subst hff
        rcases hbad with hb | hb | hb
        · simp [hb] at hfile
        · exact absurd hb hsize
        · exact absurd hb hzero
      · rw [he] at hoe; simp at hoe
      · rw [hd'] at hoe
        injection hoe with hdd
        subst hdd
        exact absurd ⟨he, ha⟩ henc
      · simp [validatePdf, hfb, hod, h1, h2, h3, errorResult]

theorem c10_validate_pdf_total_witness :
    (validatePdf 1000 { file := none, openDoc := Except.error "no document" }
      "standard").is_valid = false ∧
    (validatePdf 1000 { file := none, openDoc := Except.error "no document" }
      "standard").errors ≠ [] :=
  c10_validate_pdf_total 1000
    { file := none, openDoc := Except.error "no document" } "standard" (Or.inl rfl)

end Darkside
